import Mathlib

/-!
Verification of the access-controlled search core of the Telegram search bot
(`bot.py`).  The bot state (quota balances, admin list, rate-limit stamps,
search history) is embedded shallowly: Python dicts become association lists
over `String` keys, balances are `Int`, and wall-clock timestamps are integers
counting microseconds (the resolution of `datetime`), so that a cooldown of
`c` seconds corresponds to `c * 1000000` ticks.
-/

/-- Python dict assignment `d[k] = v` over an association list: replace the
first binding of `k`, or append a fresh binding if `k` is absent. -/
def setKey {α : Type} (k : String) (v : α) : List (String × α) → List (String × α)
  | [] => [(k, v)]
  | (k₁, v₁) :: rest => if k₁ = k then (k, v) :: rest else (k₁, v₁) :: setKey k v rest

theorem lookup_setKey_self {α : Type} (k : String) (v : α) :
    ∀ l : List (String × α), (setKey k v l).lookup k = some v := by
  intro l
  induction l with
  | nil => simp [setKey, List.lookup]
  | cons p rest ih =>
    obtain ⟨k₁, v₁⟩ := p
    by_cases h : k₁ = k
    · simp [setKey, h, List.lookup]
    · simp only [setKey, if_neg h, List.lookup]
      have hne : (k == k₁) = false := beq_eq_false_iff_ne.mpr (Ne.symm h)
      simp [hne, ih]

theorem lookup_setKey_other {α : Type} {k k₂ : String} (h : k₂ ≠ k) (v : α) :
    ∀ l : List (String × α), (setKey k v l).lookup k₂ = l.lookup k₂ := by
  intro l
  induction l with
  | nil => simp [setKey, List.lookup, beq_eq_false_iff_ne.mpr h]
  | cons p rest ih =>
    obtain ⟨k₁, v₁⟩ := p
    by_cases hk : k₁ = k
    · subst hk
      simp [setKey, List.lookup, beq_eq_false_iff_ne.mpr h, ih]
    · simp only [setKey, if_neg hk, List.lookup]
      cases hbe : (k₂ == k₁) <;> simp [hbe, ih]

/-- One entry of the per-user search history kept by `log_search`
(`{"query": ..., "results": ..., "timestamp": ...}`). -/
structure HistoryEntry where
  query : String
  results : Nat
  timestamp : Int
deriving DecidableEq

/-- The mutable state of `TelegramBot`: `user_points`, `admin_users`,
`max_points`, `rate_limits`, `cooldown_seconds` and `search_history`.
Timestamps are microseconds. -/
structure BotState where
  userPoints : List (String × Int)
  adminUsers : List String
  maxPoints : Int
  rateLimits : List (String × Int)
  cooldownSeconds : Int
  searchHistory : List (String × List HistoryEntry)
deriving DecidableEq

/-- Model of `TelegramBot.is_admin`: membership of the identity in `admin_users`. -/
def is_admin (s : BotState) (u : String) : Bool :=
  s.adminUsers.contains u

/-- Model of `TelegramBot.get_points`: returns the stored balance and, when the
identity is unseen, lazily initializes it to `max_points` (a state change). -/
def get_points (s : BotState) (u : String) : Int × BotState :=
  match s.userPoints.lookup u with
  | some b => (b, s)
  | none => (s.maxPoints, { s with userPoints := setKey u s.maxPoints s.userPoints })

/-- The balance `get_points` reports, as a pure value (unseen identities read
as `max_points`, which is exactly what `get_points` would install and return). -/
def pointsVal (s : BotState) (u : String) : Int :=
  (s.userPoints.lookup u).getD s.maxPoints

/-- Model of `TelegramBot.use_point`: admins succeed with no state change; otherwise
the entry is ensured (lazy `max_points` initialization) and then decremented
by 1 iff it is positive, else the call fails. -/
def use_point (s : BotState) (u : String) : Bool × BotState :=
  if is_admin s u then (true, s)
  else
    let pts := match s.userPoints.lookup u with
      | none => setKey u s.maxPoints s.userPoints
      | some _ => s.userPoints
    let b := (pts.lookup u).getD 0
    if 0 < b then (true, { s with userPoints := setKey u (b - 1) pts })
    else (false, { s with userPoints := pts })

/-- Model of `TelegramBot.add_points`: absent target entries are initialized to 0 (not
`max_points`) and then the credited amount is added. -/
def add_points (s : BotState) (target : String) (amount : Int) : BotState :=
  let pts := match s.userPoints.lookup target with
    | none => setKey target 0 s.userPoints
    | some _ => s.userPoints
  let b := (pts.lookup target).getD 0
  { s with userPoints := setKey target (b + amount) pts }

/-- A sequence of `n` consecutive `use_point` calls for one identity. -/
def debitSeq (s : BotState) (u : String) : Nat → BotState
  | 0 => s
  | n + 1 => debitSeq (use_point s u).2 u n

theorem use_point_fst (s : BotState) (u : String) (h : is_admin s u = false) :
    (use_point s u).1 = decide (0 < pointsVal s u) := by
  unfold use_point
  rw [if_neg (by simp [h])]
  cases hl : s.userPoints.lookup u with
  | none =>
    simp only [pointsVal, hl, Option.getD_none]
    rw [lookup_setKey_self]
    simp only [Option.getD_some]
    by_cases hpos : 0 < s.maxPoints
    · rw [if_pos hpos]; simp [hpos]
    · rw [if_neg hpos]; simp [hpos]
  | some b =>
    simp only [pointsVal, hl, Option.getD_some]
    by_cases hpos : 0 < b
    · rw [if_pos hpos]; simp [hpos]
    · rw [if_neg hpos]; simp [hpos]

theorem use_point_pointsVal (s : BotState) (u : String) (h : is_admin s u = false) :
    pointsVal (use_point s u).2 u =
      if 0 < pointsVal s u then pointsVal s u - 1 else pointsVal s u := by
  unfold use_point
  rw [if_neg (by simp [h])]
  cases hl : s.userPoints.lookup u with
  | none =>
    simp only [pointsVal, hl, Option.getD_none]
    rw [lookup_setKey_self]
    simp only [Option.getD_some]
    by_cases hpos : 0 < s.maxPoints
    · rw [if_pos hpos, if_pos hpos]
      simp [lookup_setKey_self]
    · rw [if_neg hpos, if_neg hpos]
      simp [lookup_setKey_self]
  | some b =>
    simp only [pointsVal, hl, Option.getD_some]
    by_cases hpos : 0 < b
    · rw [if_pos hpos, if_pos hpos]
      simp [lookup_setKey_self]
    · rw [if_neg hpos, if_neg hpos]
      simp [hl]

theorem pointsVal_use_point_nonneg {s : BotState} {u : String}
    (h : 0 ≤ pointsVal s u) : 0 ≤ pointsVal (use_point s u).2 u := by
  by_cases ha : is_admin s u
  · unfold use_point
    rw [if_pos ha]
    exact h
  · rw [use_point_pointsVal s u (by simpa using ha)]
    by_cases hpos : 0 < pointsVal s u
    · rw [if_pos hpos]; omega
    · rw [if_neg hpos]; exact h

/-- C1: starting from a non-negative balance, no sequence of `use_point`
calls drives the balance of an identity below 0; a single non-admin debit
decrements by exactly 1 when the balance is positive and otherwise returns
false leaving the balance unchanged. -/
theorem balance_never_negative (s : BotState) (u : String)
    (h : 0 ≤ pointsVal s u) :
    (∀ n : Nat, 0 ≤ pointsVal (debitSeq s u n) u) ∧
    (is_admin s u = false →
      (0 < pointsVal s u →
        (use_point s u).1 = true ∧
        pointsVal (use_point s u).2 u = pointsVal s u - 1) ∧
      (pointsVal s u ≤ 0 →
        (use_point s u).1 = false ∧
        pointsVal (use_point s u).2 u = pointsVal s u)) := by
  constructor
  · intro n
    induction n generalizing s with
    | zero => exact h
    | succ m ih => exact ih _ (pointsVal_use_point_nonneg h)
  · intro hadm
    constructor
    · intro hpos
      refine ⟨?_, ?_⟩
      · rw [use_point_fst s u hadm]; simpa using hpos
      · rw [use_point_pointsVal s u hadm, if_pos hpos]
    · intro hz
      refine ⟨?_, ?_⟩
      · rw [use_point_fst s u hadm]; simpa using (by omega : ¬0 < pointsVal s u)
      · rw [use_point_pointsVal s u hadm, if_neg (by omega)]

/-- A state with no user records, default configuration (`max_points = 5`,
`cooldown_seconds = 5`) and no admins. -/
def emptyState : BotState :=
  { userPoints := [], adminUsers := [], maxPoints := 5,
    rateLimits := [], cooldownSeconds := 5, searchHistory := [] }

/-- Witness for C1 at a concrete state: seven debits from a fresh identity
with default quota 5 leave the balance non-negative. -/
theorem balance_never_negative_witness :
    0 ≤ pointsVal emptyState "7" ∧ 0 ≤ pointsVal (debitSeq emptyState "7" 7) "7" :=
  ⟨by decide, (balance_never_negative emptyState "7" (by decide)).1 7⟩

/-- C4: for an admin identity, `use_point` returns true and leaves the whole
state (in particular the balance entry) untouched. -/
theorem admin_bypass_use_point (s : BotState) (u : String)
    (h : is_admin s u = true) :
    use_point s u = (true, s) := by
  unfold use_point
  simp [h]

/-- A state whose only admin is identity 9. -/
def adminState : BotState :=
  { emptyState with adminUsers := ["9"] }

/-- Witness for C4: the concrete admin identity 9 debits successfully with no
state change. -/
theorem admin_bypass_use_point_witness :
    is_admin adminState "9" = true ∧ use_point adminState "9" = (true, adminState) :=
  ⟨by decide, admin_bypass_use_point adminState "9" (by decide)⟩

/-- C10: crediting an unseen identity initializes its record to 0, so the
post-credit balance is exactly the credited amount, and a later `get_points`
finds the record and performs no lazy initialization (no state change). -/
theorem add_points_fresh (s : BotState) (u : String) (n : Int)
    (h : s.userPoints.lookup u = none) :
    (add_points s u n).userPoints.lookup u = some n ∧
    pointsVal (add_points s u n) u = n ∧
    get_points (add_points s u n) u = (n, add_points s u n) := by
  have hlk : (add_points s u n).userPoints.lookup u = some n := by
    simp only [add_points, h]
    rw [lookup_setKey_self]
    congr 1
    rw [lookup_setKey_self]
    simp
  refine ⟨hlk, ?_, ?_⟩
  · simp [pointsVal, hlk]
  · simp [get_points, hlk]

/-- Witness for C10: crediting 2 points to the unseen identity 3 yields
balance exactly 2, not `max_points + 2`. -/
theorem add_points_fresh_witness :
    emptyState.userPoints.lookup "3" = none ∧
    pointsVal (add_points emptyState "3" 2) "3" = 2 :=
  ⟨by decide, (add_points_fresh emptyState "3" 2 (by decide)).2.1⟩

/-- One second in timestamp ticks (microseconds, the resolution of datetime). -/
def usPerSec : Int := 1000000

/-- Python round() — round half to even — of `x / 1000000` seconds, for a
microsecond count `x`. -/
def pyRoundSec (x : Int) : Int :=
  let f := Int.fdiv x usPerSec
  let r := Int.emod x usPerSec
  if r < 500000 then f
  else if 500000 < r then f + 1
  else if f % 2 = 0 then f else f + 1

/-- Ceiling of `x / 1000000` seconds for a microsecond count `x`. -/
def ceilSec (x : Int) : Int := -(Int.fdiv (-x) usPerSec)

/-- Model of `TelegramBot.check_rate_limit`: returns `((is_limited, seconds_to_wait),
new state)`.  Admins bypass with no state change.  Otherwise, when a prior
stamp exists and less than `cooldown_seconds` have elapsed, the request is
rejected with the rounded remaining wait and the stamp kept; in every other
case `now` is recorded as the new stamp and the request is allowed. -/
def check_rate_limit (s : BotState) (u : String) (now : Int) :
    (Bool × Int) × BotState :=
  if is_admin s u then ((false, 0), s)
  else
    match s.rateLimits.lookup u with
    | some last =>
      if now - last < s.cooldownSeconds * usPerSec then
        ((true, pyRoundSec (s.cooldownSeconds * usPerSec - (now - last))), s)
      else ((false, 0), { s with rateLimits := setKey u now s.rateLimits })
    | none => ((false, 0), { s with rateLimits := setKey u now s.rateLimits })

/-- A state with one non-admin identity 4 stamped at t = 0, cooldown 5 s. -/
def c5State : BotState :=
  { emptyState with rateLimits := [("4", 0)] }

/-- C5 counterexample: with cooldown 5 s, a stamp at t = 0 and a retry at
t = 2.5 s (2500000 µs), the code returns waitSeconds = 2 via Python round
(half to even), whereas ceil(5 − 2.5) = 3 as the claim states. -/
theorem rate_limit_wait_ne_ceil :
    (check_rate_limit c5State "4" 2500000).1 = (true, 2) ∧
    ceilSec (c5State.cooldownSeconds * usPerSec - 2500000) = 3 ∧
    (2 : Int) ≠ 3 := by decide

/-- C5 (amended): for a non-admin with a prior stamp and elapsed < cooldown,
`check_rate_limit` rejects, reports Python round(cooldown − elapsed) (round
half to even, not the ceiling) seconds to wait, and leaves the whole state —
in particular the stamp — unchanged; with no prior stamp, or with
elapsed ≥ cooldown, it records `now` as the new stamp and allows (wait 0). -/
theorem check_rate_limit_spec (s : BotState) (u : String) (now : Int)
    (h : is_admin s u = false) :
    (∀ last, s.rateLimits.lookup u = some last →
        now - last < s.cooldownSeconds * usPerSec →
        (check_rate_limit s u now).1 =
          (true, pyRoundSec (s.cooldownSeconds * usPerSec - (now - last))) ∧
        (check_rate_limit s u now).2 = s) ∧
    ((s.rateLimits.lookup u = none ∨
        ∃ last, s.rateLimits.lookup u = some last ∧
          s.cooldownSeconds * usPerSec ≤ now - last) →
      (check_rate_limit s u now).1 = (false, 0) ∧
      ((check_rate_limit s u now).2).rateLimits.lookup u = some now) := by
  constructor
  · intro last hl hlt
    unfold check_rate_limit
    rw [if_neg (by simp [h])]
    simp only [hl]
    rw [if_pos hlt]
    exact ⟨rfl, rfl⟩
  · rintro (hl | ⟨last, hl, hge⟩)
    · unfold check_rate_limit
      rw [if_neg (by simp [h])]
      simp [hl, lookup_setKey_self]
    · unfold check_rate_limit
      rw [if_neg (by simp [h])]
      simp only [hl]
      rw [if_neg (by omega)]
      simp [lookup_setKey_self]

/-- Witness for C5: identity 4, stamped at t = 0 with cooldown 5 s, calls at
t = 3 s and is told to wait 2 s with the stamp kept; a call at t = 6 s is
allowed and restamps. -/
theorem check_rate_limit_spec_witness :
    (check_rate_limit c5State "4" 3000000).1 = (true, 2) ∧
    (check_rate_limit c5State "4" 3000000).2 = c5State ∧
    (check_rate_limit c5State "4" 6000000).1 = (false, 0) ∧
    (check_rate_limit c5State "4" 6000000).2.rateLimits.lookup "4" = some 6000000 := by
  have h3 := (check_rate_limit_spec c5State "4" 3000000 (by decide)).1 0
    (by decide) (by decide)
  have h6 := (check_rate_limit_spec c5State "4" 6000000 (by decide)).2
    (Or.inr ⟨0, by decide, by decide⟩)
  refine ⟨?_, h3.2, h6.1, h6.2⟩
  rw [h3.1]
  decide

/-- Python slice `l[-n:]`: the last `n` elements (all of `l` when `n` is at
least the length). -/
def takeLast {α : Type} (n : Nat) (l : List α) : List α := l.drop (l.length - n)

theorem length_takeLast {α : Type} (n : Nat) (l : List α) :
    (takeLast n l).length = min n l.length := by
  simp only [takeLast, List.length_drop]
  omega

theorem takeLast_of_le {α : Type} {n : Nat} {l : List α} (h : l.length ≤ n) :
    takeLast n l = l := by
  simp only [takeLast]
  rw [Nat.sub_eq_zero_of_le h, List.drop_zero]

theorem takeLast_takeLast {α : Type} (k n : Nat) (hk : k ≤ n) (l : List α) :
    takeLast k (takeLast n l) = takeLast k l := by
  unfold takeLast
  rw [List.length_drop, List.drop_drop]
  congr 1
  omega

theorem takeLast_append_singleton {α : Type} (n : Nat) (hn : 1 ≤ n)
    (l : List α) (e : α) :
    takeLast n (l ++ [e]) = takeLast (n - 1) l ++ [e] := by
  unfold takeLast
  rw [List.length_append, List.length_singleton,
    List.drop_append_of_le_length (by omega)]
  congr 2
  omega

/-- The per-identity history update performed by `log_search`: append the new
entry, then retain only the last 20 (`history[-20:]`). -/
def appendHist (l : List HistoryEntry) (e : HistoryEntry) : List HistoryEntry :=
  takeLast 20 (l ++ [e])

theorem foldl_appendHist (es : List HistoryEntry) :
    es.foldl appendHist [] = takeLast 20 es := by
  induction es using List.reverseRecOn with
  | nil => rfl
  | append_singleton l a ih =>
    rw [List.foldl_append, List.foldl_cons, List.foldl_nil, ih]
    show takeLast 20 (takeLast 20 l ++ [a]) = _
    rw [takeLast_append_singleton 20 (by omega), takeLast_takeLast 19 20 (by omega),
      ← takeLast_append_singleton 20 (by omega)]

/-- Model of `TelegramBot.log_search`: append the query, result count and timestamp to
the identity's history list and truncate it to the last 20 entries. -/
def log_search (s : BotState) (u : String) (q : String) (numResults : Nat)
    (now : Int) : BotState :=
  let hist := (s.searchHistory.lookup u).getD []
  { s with searchHistory := setKey u (appendHist hist ⟨q, numResults, now⟩) s.searchHistory }

/-- The history read `history[user][-n:]` (`view_history` uses n = 10): up to
the last `n` entries, oldest first. -/
def recentHist (n : Nat) (l : List HistoryEntry) : List HistoryEntry :=
  takeLast n l

/-- A sequence of `log_search` calls for one identity, one per entry. -/
def logSeq (s : BotState) (u : String) : List HistoryEntry → BotState
  | [] => s
  | e :: es => logSeq (log_search s u e.query e.results e.timestamp) u es

theorem logSeq_lookup (u : String) (es : List HistoryEntry) :
    ∀ s : BotState, ((logSeq s u es).searchHistory.lookup u).getD [] =
      es.foldl appendHist ((s.searchHistory.lookup u).getD []) := by
  induction es with
  | nil => intro s; rfl
  | cons e es ih =>
    intro s
    simp only [logSeq, List.foldl_cons]
    rw [ih]
    congr 1
    simp [log_search, lookup_setKey_self]

/-- C8: for a fresh identity, any sequence of `log_search` appends leaves at
most 20 stored entries — exactly the most recent 20 in append order — and
after 25 appends reading up to 100 recent entries returns exactly those 20. -/
theorem history_bound (s : BotState) (u : String) (es : List HistoryEntry)
    (h : s.searchHistory.lookup u = none) :
    ((logSeq s u es).searchHistory.lookup u).getD [] = takeLast 20 es ∧
    (((logSeq s u es).searchHistory.lookup u).getD []).length ≤ 20 ∧
    (es.length = 25 →
      recentHist 100 (((logSeq s u es).searchHistory.lookup u).getD []) =
        takeLast 20 es ∧
      (recentHist 100 (((logSeq s u es).searchHistory.lookup u).getD [])).length
        = 20) := by
  have hfold : ((logSeq s u es).searchHistory.lookup u).getD [] = takeLast 20 es := by
    rw [logSeq_lookup, h]
    exact foldl_appendHist es
  refine ⟨hfold, ?_, ?_⟩
  · rw [hfold, length_takeLast]
    omega
  · intro h25
    have hlen : (takeLast 20 es).length = 20 := by
      rw [length_takeLast, h25]
      decide
    constructor
    · rw [hfold]
      exact takeLast_of_le (by omega)
    · rw [hfold]
      unfold recentHist
      rw [takeLast_of_le (by omega), hlen]

/-- Twenty-five history entries with distinct result counts and timestamps. -/
def c25Entries : List HistoryEntry :=
  (List.range 25).map (fun i => ⟨"q", i, (i : Int)⟩)

/-- Witness for C8: after the 25 concrete appends, the stored history is the
last 20 entries and a 100-entry read returns exactly 20 of them. -/
theorem history_bound_witness :
    ((logSeq emptyState "8" c25Entries).searchHistory.lookup "8").getD [] =
      takeLast 20 c25Entries ∧
    (recentHist 100
      (((logSeq emptyState "8" c25Entries).searchHistory.lookup "8").getD [])).length
      = 20 :=
  ⟨(history_bound emptyState "8" c25Entries (by decide)).1,
   ((history_bound emptyState "8" c25Entries (by decide)).2.2 (by decide)).2⟩

/-- Raw code points of a string, the key BINARY collation compares. -/
def strCodes (s : String) : List Nat := s.data.map Char.toNat

/-- Code points of a string lowercased the way SQL ILIKE compares them
(ASCII A–Z folded to a–z). -/
def lowerCodes (s : String) : List Nat :=
  s.data.map (fun c => if 65 ≤ c.toNat ∧ c.toNat ≤ 90 then c.toNat + 32 else c.toNat)

/-- All suffixes of a list, longest first, ending with []. -/
def suffixes : List Nat → List (List Nat)
  | [] => [[]]
  | c :: ts => (c :: ts) :: suffixes ts

/-- SQL LIKE pattern matching over code points: 37 (the % wildcard) matches
any sequence, 95 (the _ wildcard) matches exactly one code, and every other
code matches itself.  The whole text must be consumed. -/
def likeMatch : List Nat → List Nat → Bool
  | [], t => t.isEmpty
  | p :: ps, t =>
    if p = 37 then (suffixes t).any (fun s => likeMatch ps s)
    else
      match t with
      | [] => false
      | c :: ts => (p == 95 || p == c) && likeMatch ps ts

/-- Head test over code lists: the first argument begins the second. -/
def leadsWith : List Nat → List Nat → Bool
  | [], _ => true
  | _ :: _, [] => false
  | a :: as, b :: bs => a == b && leadsWith as bs

/-- Substring test over code lists: some suffix of the text begins with q. -/
def occursIn (q : List Nat) : List Nat → Bool
  | [] => leadsWith q []
  | c :: ts => leadsWith q (c :: ts) || occursIn q ts

theorem nil_mem_suffixes : ∀ t : List Nat, [] ∈ suffixes t := by
  intro t
  induction t with
  | nil => simp [suffixes]
  | cons c ts ih => simp only [suffixes, List.mem_cons]; exact Or.inr ih

theorem any_suffixes_leadsWith (q : List Nat) :
    ∀ t, (suffixes t).any (fun s => leadsWith q s) = occursIn q t := by
  intro t
  induction t with
  | nil => simp [suffixes, occursIn]
  | cons c ts ih => simp [suffixes, occursIn, ih]

theorem likeMatch_append_pct (q : List Nat)
    (hq : q.all (fun c => !(c == 37) && !(c == 95)) = true) :
    ∀ t, likeMatch (q ++ [37]) t = leadsWith q t := by
  induction q with
  | nil =>
    intro t
    simp only [List.nil_append, leadsWith]
    simp only [likeMatch, if_pos rfl]
    exact List.any_eq_true.mpr ⟨[], nil_mem_suffixes t, rfl⟩
  | cons c q ih =>
    simp only [List.all_cons, Bool.and_eq_true, Bool.not_eq_eq_eq_not, Bool.not_true,
      beq_eq_false_iff_ne] at hq
    obtain ⟨⟨hc37, hc95⟩, hq⟩ := hq
    intro t
    cases t with
    | nil => simp [likeMatch, leadsWith, hc37]
    | cons d ts =>
      simp only [List.cons_append, likeMatch, if_neg hc37, leadsWith]
      rw [List.append_eq, ih hq ts]
      simp [beq_eq_false_iff_ne.mpr hc95]

theorem likeMatch_substring (q : List Nat)
    (hq : q.all (fun c => !(c == 37) && !(c == 95)) = true) (t : List Nat) :
    likeMatch (37 :: (q ++ [37])) t = occursIn q t := by
  have h1 : likeMatch (37 :: (q ++ [37])) t =
      (suffixes t).any (fun s => likeMatch (q ++ [37]) s) := by
    simp [likeMatch]
  rw [h1]
  simp only [likeMatch_append_pct q hq]
  exact any_suffixes_leadsWith q t

/-- A record row: the searchable and display fields of `models.Row`. -/
structure Row where
  name : String
  cnic_passport : String
  account_number : String
  branch_code : String
  instrument_number : String
  amount : String
  address : String
  last_transaction_date : String
deriving DecidableEq

/-- Model of `column.ilike(f"%{query}%")`: case-insensitive LIKE with the query text
spliced between two % wildcards; % and _ occurring in the query keep their
LIKE wildcard meaning. -/
def ilike (query field : String) : Bool :=
  likeMatch (37 :: (lowerCodes query ++ [37])) (lowerCodes field)

/-- The OR of the six ilike filters of `search_db` (amount is already a text
column in `models.Row`, so the SQL string cast is the identity on it). -/
def rowMatches (query : String) (r : Row) : Bool :=
  ilike query r.cnic_passport || ilike query r.account_number ||
  ilike query r.name || ilike query r.branch_code ||
  ilike query r.instrument_number || ilike query r.amount

/-- The match predicate in the words of the specification, stated for
comparison with `rowMatches`: case-insensitive substring comparison,
independently against each of the six searchable fields. -/
def substrRowMatches (query : String) (r : Row) : Bool :=
  occursIn (lowerCodes query) (lowerCodes r.cnic_passport) ||
  occursIn (lowerCodes query) (lowerCodes r.account_number) ||
  occursIn (lowerCodes query) (lowerCodes r.name) ||
  occursIn (lowerCodes query) (lowerCodes r.branch_code) ||
  occursIn (lowerCodes query) (lowerCodes r.instrument_number) ||
  occursIn (lowerCodes query) (lowerCodes r.amount)

/-- Ascending code point comparison of code lists (BINARY collation). -/
def codesLe : List Nat → List Nat → Bool
  | [], _ => true
  | _ :: _, [] => false
  | x :: xs, y :: ys => decide (x < y) || (x == y && codesLe xs ys)

theorem codesLe_total : ∀ a b : List Nat, codesLe a b = true ∨ codesLe b a = true := by
  intro a
  induction a with
  | nil => intro b; left; rfl
  | cons x xs ih =>
    intro b
    cases b with
    | nil => right; rfl
    | cons y ys =>
      rcases Nat.lt_trichotomy x y with h | h | h
      · left; simp [codesLe, h]
      · subst h
        rcases ih ys with h2 | h2
        · left; simp [codesLe, h2]
        · right; simp [codesLe, h2]
      · right; simp [codesLe, h]

theorem codesLe_trans : ∀ a b c : List Nat,
    codesLe a b = true → codesLe b c = true → codesLe a c = true := by
  intro a
  induction a with
  | nil => intro b c _ _; rfl
  | cons x xs ih =>
    intro b c hab hbc
    cases b with
    | nil => simp [codesLe] at hab
    | cons y ys =>
      cases c with
      | nil => simp [codesLe] at hbc
      | cons z zs =>
        simp only [codesLe, Bool.or_eq_true, Bool.and_eq_true, decide_eq_true_eq,
          beq_iff_eq] at hab hbc ⊢
        rcases hab with h1 | ⟨h1, h2⟩
        · rcases hbc with h3 | ⟨h3, h4⟩
          · left; omega
          · left; omega
        · rcases hbc with h3 | ⟨h3, h4⟩
          · left; omega
          · right; exact ⟨by omega, ih ys zs h2 h4⟩

/-- ORDER BY name: ascending code point order on the name field. -/
def nameOrder (a b : Row) : Prop :=
  codesLe (strCodes a.name) (strCodes b.name) = true

instance : DecidableRel nameOrder := fun a b => instDecidableEqBool _ _

instance : IsTotal Row nameOrder := ⟨fun a b => codesLe_total _ _⟩

instance : IsTrans Row nameOrder := ⟨fun a b c => codesLe_trans _ _ _⟩

/-- Model of `TelegramBot.search_db`: keep the rows passing the six-field OR filter,
order them by name ascending, and truncate to the first 10. -/
def search_db (rows : List Row) (query : String) : List Row :=
  (List.insertionSort nameOrder (rows.filter (rowMatches query))).take 10

/-- Queries free of the SQL LIKE wildcards % (code 37) and _ (code 95). -/
def wildcardFree (q : String) : Bool :=
  (lowerCodes q).all (fun c => !(c == 37) && !(c == 95))

/-- A record with no underscore in any field. -/
def rowXY : Row :=
  { name := "xy", cnic_passport := "n", account_number := "n", branch_code := "n",
    instrument_number := "n", amount := "n", address := "n",
    last_transaction_date := "n" }

/-- C9 counterexample: the query consisting of the single character _ is an
SQL LIKE wildcard, so `search_db` returns `rowXY` even though "_" is not a
substring of any of its fields — the code does LIKE pattern matching on the
raw query, not plain substring comparison. -/
theorem search_db_not_substring :
    search_db [rowXY] "_" = [rowXY] ∧ substrRowMatches "_" rowXY = false := by
  decide

def rowAli : Row :=
  { name := "Ali", cnic_passport := "-", account_number := "-", branch_code := "-",
    instrument_number := "-", amount := "-", address := "-",
    last_transaction_date := "-" }

def rowAmir : Row :=
  { name := "Amir", cnic_passport := "-", account_number := "-", branch_code := "-",
    instrument_number := "-", amount := "-", address := "-",
    last_transaction_date := "-" }

/-- C9 (amended): for query text free of the LIKE wildcards % and _, the
filter of `search_db` is exactly case-insensitive substring comparison
against the six searchable fields; the result is drawn from the input rows,
ordered by name ascending, at most 10 long, complete when at most 10 rows
match, and on the two records Ali and Amir with query "A" it is exactly
[Ali, Amir]. -/
theorem search_db_spec (rows : List Row) (q : String)
    (hq : wildcardFree q = true) :
    (∀ r, rowMatches q r = substrRowMatches q r) ∧
    (∀ r, r ∈ search_db rows q → r ∈ rows ∧ substrRowMatches q r = true) ∧
    (search_db rows q).Pairwise nameOrder ∧
    (search_db rows q).length ≤ 10 ∧
    ((rows.filter (rowMatches q)).length ≤ 10 →
      ∀ r, r ∈ rows → substrRowMatches q r = true → r ∈ search_db rows q) ∧
    search_db [rowAmir, rowAli] "A" = [rowAli, rowAmir] := by
  have hmatch : ∀ r, rowMatches q r = substrRowMatches q r := by
    intro r
    unfold rowMatches substrRowMatches ilike
    rw [likeMatch_substring _ hq, likeMatch_substring _ hq, likeMatch_substring _ hq,
      likeMatch_substring _ hq, likeMatch_substring _ hq, likeMatch_substring _ hq]
  refine ⟨hmatch, ?_, ?_, ?_, ?_, by decide⟩
  · intro r hr
    have h1 : r ∈ List.insertionSort nameOrder (rows.filter (rowMatches q)) :=
      List.take_subset 10 _ hr
    have h2 : r ∈ rows.filter (rowMatches q) :=
      (List.perm_insertionSort nameOrder _).mem_iff.mp h1
    have h3 := List.mem_filter.mp h2
    exact ⟨h3.1, by rw [← hmatch]; exact h3.2⟩
  · exact ((List.sorted_insertionSort nameOrder _).sublist (List.take_sublist 10 _))
  · rw [search_db]
    simp only [List.length_take]
    omega
  · intro h10 r hr hm
    have hlen : (List.insertionSort nameOrder (rows.filter (rowMatches q))).length ≤ 10 := by
      rw [(List.perm_insertionSort nameOrder _).length_eq]
      exact h10
    rw [search_db, List.take_of_length_le hlen]
    exact (List.perm_insertionSort nameOrder _).mem_iff.mpr
      (List.mem_filter.mpr ⟨hr, by rw [hmatch]; exact hm⟩)

/-- Witness for C9: the concrete query "A" is wildcard-free and the Ali/Amir
ordering example holds. -/
theorem search_db_spec_witness :
    wildcardFree "A" = true ∧ search_db [rowAmir, rowAli] "A" = [rowAli, rowAmir] :=
  ⟨by decide, (search_db_spec [rowAmir, rowAli] "A" (by decide)).2.2.2.2.2⟩

/-- Whitespace as Python str.strip() removes it (space, tab, LF, CR, VT, FF). -/
def isSpaceCode (c : Char) : Bool :=
  c.toNat = 32 || c.toNat = 9 || c.toNat = 10 || c.toNat = 13 ||
  c.toNat = 11 || c.toNat = 12

/-- Python `text.strip()`: drop leading and trailing whitespace. -/
def pyStrip (s : String) : String :=
  ⟨((s.data.dropWhile isSpaceCode).reverse.dropWhile isSpaceCode).reverse⟩

/-- The visible outcome of one `handle_search` invocation. -/
inductive SearchOutcome where
  | emptyQuery : SearchOutcome
  | rateLimited : Int → SearchOutcome
  | exhausted : SearchOutcome
  | noMatch : SearchOutcome
  | found : List Row → Option Int → SearchOutcome
deriving DecidableEq

/-- The tail of `handle_search` from the database query on: run the search,
log the attempt unconditionally, return no-match on an empty result without
touching quota, and otherwise charge a non-admin one point and re-read the
balance for display. -/
def handle_search_found (rows : List Row) (s : BotState) (u : String)
    (query : String) (now : Int) (admin : Bool) : SearchOutcome × BotState :=
  let results := search_db rows query
  let s1 := log_search s u query results.length now
  if results.isEmpty then (SearchOutcome.noMatch, s1)
  else if admin then (SearchOutcome.found results none, s1)
  else
    let s2 := (use_point s1 u).2
    let gp := get_points s2 u
    (SearchOutcome.found results (some gp.1), gp.2)

/-- Model of `TelegramBot.handle_search`: strip the text; reject an empty query with
no state change; rate check (which stamps allowed attempts); reject a
non-admin whose balance is not positive (keeping the lazy initialization
`get_points` performed); then run the search tail. -/
def handle_search (rows : List Row) (s : BotState) (u : String) (text : String)
    (now : Int) : SearchOutcome × BotState :=
  let query := pyStrip text
  if query = "" then (SearchOutcome.emptyQuery, s)
  else
    let rc := check_rate_limit s u now
    if rc.1.1 then (SearchOutcome.rateLimited rc.1.2, rc.2)
    else
      if is_admin rc.2 u then handle_search_found rows rc.2 u query now true
      else
        let gp := get_points rc.2 u
        if gp.1 ≤ 0 then (SearchOutcome.exhausted, gp.2)
        else handle_search_found rows gp.2 u query now false

theorem pointsVal_congr {s₁ s₂ : BotState} (hup : s₁.userPoints = s₂.userPoints)
    (hmax : s₁.maxPoints = s₂.maxPoints) (u : String) :
    pointsVal s₁ u = pointsVal s₂ u := by
  unfold pointsVal
  rw [hup, hmax]

theorem is_admin_congr {s₁ s₂ : BotState} (h : s₁.adminUsers = s₂.adminUsers)
    (u : String) : is_admin s₁ u = is_admin s₂ u := by
  unfold is_admin
  rw [h]

theorem check_rate_limit_frame (s : BotState) (u : String) (now : Int) :
    (check_rate_limit s u now).2.userPoints = s.userPoints ∧
    (check_rate_limit s u now).2.maxPoints = s.maxPoints ∧
    (check_rate_limit s u now).2.adminUsers = s.adminUsers := by
  unfold check_rate_limit
  by_cases h : is_admin s u
  · rw [if_pos h]
    exact ⟨rfl, rfl, rfl⟩
  · rw [if_neg h]
    cases hl : s.rateLimits.lookup u with
    | none => exact ⟨rfl, rfl, rfl⟩
    | some last =>
      dsimp only
      by_cases hlt : now - last < s.cooldownSeconds * usPerSec
      · rw [if_pos hlt]
        exact ⟨rfl, rfl, rfl⟩
      · rw [if_neg hlt]
        exact ⟨rfl, rfl, rfl⟩

theorem get_points_val (s : BotState) (u : String) :
    (get_points s u).1 = pointsVal s u := by
  unfold get_points pointsVal
  cases hl : s.userPoints.lookup u <;> simp [hl]

theorem get_points_frame (s : BotState) (u : String) :
    (get_points s u).2.adminUsers = s.adminUsers ∧
    (get_points s u).2.maxPoints = s.maxPoints ∧
    (get_points s u).2.rateLimits = s.rateLimits ∧
    (get_points s u).2.searchHistory = s.searchHistory := by
  unfold get_points
  cases hl : s.userPoints.lookup u <;> exact ⟨rfl, rfl, rfl, rfl⟩

theorem get_points_pointsVal (s : BotState) (u : String) :
    pointsVal (get_points s u).2 u = pointsVal s u := by
  unfold get_points
  cases hl : s.userPoints.lookup u with
  | none => simp [pointsVal, hl, lookup_setKey_self]
  | some b => simp [pointsVal, hl]

theorem use_point_frame (s : BotState) (u : String) :
    (use_point s u).2.adminUsers = s.adminUsers ∧
    (use_point s u).2.maxPoints = s.maxPoints ∧
    (use_point s u).2.rateLimits = s.rateLimits ∧
    (use_point s u).2.searchHistory = s.searchHistory := by
  unfold use_point
  by_cases h : is_admin s u
  · rw [if_pos h]
    exact ⟨rfl, rfl, rfl, rfl⟩
  · rw [if_neg h]
    cases hl : s.userPoints.lookup u <;> dsimp only <;> split <;>
      exact ⟨rfl, rfl, rfl, rfl⟩

/-- C3: when the database match comes back empty, `handle_search` leaves the
reported balance of the identity unchanged — quota is not debited on a
no-match outcome. -/
theorem no_charge_on_empty (rows : List Row) (s : BotState) (u text : String)
    (now : Int) (h : search_db rows (pyStrip text) = []) :
    pointsVal (handle_search rows s u text now).2 u = pointsVal s u := by
  simp only [handle_search]
  by_cases hq : pyStrip text = ""
  · rw [if_pos hq]
  · rw [if_neg hq]
    have hrc := check_rate_limit_frame s u now
    have hrcp : pointsVal (check_rate_limit s u now).2 u = pointsVal s u :=
      pointsVal_congr hrc.1 hrc.2.1 u
    by_cases hlim : (check_rate_limit s u now).1.1
    · rw [if_pos hlim]
      exact hrcp
    · rw [if_neg hlim]
      have hfound : ∀ s₀ : BotState,
          pointsVal (handle_search_found rows s₀ u (pyStrip text) now true).2 u
            = pointsVal s₀ u ∧
          pointsVal (handle_search_found rows s₀ u (pyStrip text) now false).2 u
            = pointsVal s₀ u := by
        intro s₀
        simp only [handle_search_found, h]
        constructor <;> rfl
      by_cases hadm : is_admin (check_rate_limit s u now).2 u
      · rw [if_pos hadm]
        rw [(hfound _).1]
        exact hrcp
      · rw [if_neg hadm]
        have hgp := get_points_pointsVal (check_rate_limit s u now).2 u
        by_cases hz : (get_points (check_rate_limit s u now).2 u).1 ≤ 0
        · rw [if_pos hz]
          rw [hgp]
          exact hrcp
        · rw [if_neg hz]
          rw [(hfound _).2, hgp]
          exact hrcp

/-- Witness for C3: an empty record store matches nothing, and a fresh
identity keeps its full default balance through the call. -/
theorem no_charge_on_empty_witness :
    search_db [] (pyStrip "zz") = [] ∧
    pointsVal (handle_search [] emptyState "2" "zz" 0).2 "2" = pointsVal emptyState "2" :=
  ⟨by decide, no_charge_on_empty [] emptyState "2" "zz" 0 (by decide)⟩

theorem log_search_frame (s : BotState) (u q : String) (n : Nat) (t : Int) :
    (log_search s u q n t).userPoints = s.userPoints ∧
    (log_search s u q n t).adminUsers = s.adminUsers ∧
    (log_search s u q n t).maxPoints = s.maxPoints ∧
    (log_search s u q n t).rateLimits = s.rateLimits :=
  ⟨rfl, rfl, rfl, rfl⟩

theorem handle_search_found_nonadmin (rows : List Row) (s : BotState)
    (u q : String) (now : Int)
    (hadm : is_admin s u = false) (hres : search_db rows q ≠ []) :
    (handle_search_found rows s u q now false).1 =
      SearchOutcome.found (search_db rows q)
        (some (if 0 < pointsVal s u then pointsVal s u - 1 else pointsVal s u)) ∧
    pointsVal (handle_search_found rows s u q now false).2 u =
      (if 0 < pointsVal s u then pointsVal s u - 1 else pointsVal s u) := by
  have hne : (search_db rows q).isEmpty = false := by
    cases hsd : search_db rows q
    · exact absurd hsd hres
    · rfl
  simp only [handle_search_found, hne, Bool.false_eq_true, if_false]
  have hfr := log_search_frame s u q (search_db rows q).length now
  have hadm1 : is_admin (log_search s u q (search_db rows q).length now) u = false := by
    rw [is_admin_congr hfr.2.1 u]
    exact hadm
  have hp1 : pointsVal (log_search s u q (search_db rows q).length now) u
      = pointsVal s u :=
    pointsVal_congr hfr.1 hfr.2.2.1 u
  have hp2 : pointsVal (use_point (log_search s u q (search_db rows q).length now) u).2 u
      = (if 0 < pointsVal s u then pointsVal s u - 1 else pointsVal s u) := by
    rw [use_point_pointsVal _ u hadm1, hp1]
  refine ⟨?_, ?_⟩
  · rw [get_points_val, hp2]
  · rw [get_points_pointsVal, hp2]

/-- C2: a non-admin with positive balance, passing the rate check with a
nonempty query that matches at least one record, is charged exactly one
point: the post-call balance is the pre-call balance minus 1 (never minus
2), and the reported remaining balance equals it. -/
theorem charge_on_nonempty (rows : List Row) (s : BotState) (u text : String)
    (now : Int)
    (hadm : is_admin s u = false)
    (hbal : 0 < pointsVal s u)
    (hq : pyStrip text ≠ "")
    (hrl : (check_rate_limit s u now).1.1 = false)
    (hres : search_db rows (pyStrip text) ≠ []) :
    pointsVal (handle_search rows s u text now).2 u = pointsVal s u - 1 ∧
    (handle_search rows s u text now).1 =
      SearchOutcome.found (search_db rows (pyStrip text)) (some (pointsVal s u - 1)) := by
  simp only [handle_search]
  rw [if_neg hq]
  have hrc := check_rate_limit_frame s u now
  have hadm2 : is_admin (check_rate_limit s u now).2 u = false := by
    rw [is_admin_congr hrc.2.2 u]
    exact hadm
  have hrcp : pointsVal (check_rate_limit s u now).2 u = pointsVal s u :=
    pointsVal_congr hrc.1 hrc.2.1 u
  rw [if_neg (by simp [hrl])]
  rw [if_neg (by simp [hadm2])]
  have hgpv : (get_points (check_rate_limit s u now).2 u).1 = pointsVal s u := by
    rw [get_points_val, hrcp]
  rw [if_neg (by rw [hgpv]; omega)]
  have hadm3 : is_admin (get_points (check_rate_limit s u now).2 u).2 u = false := by
    rw [is_admin_congr (get_points_frame _ u).1 u]
    exact hadm2
  have hp3 : pointsVal (get_points (check_rate_limit s u now).2 u).2 u = pointsVal s u := by
    rw [get_points_pointsVal, hrcp]
  have hfound := handle_search_found_nonadmin rows _ u (pyStrip text) now hadm3 hres
  rw [hp3, if_pos hbal] at hfound
  exact ⟨hfound.2, hfound.1⟩

/-- A state in which the non-admin identity 6 has 2 points. -/
def c2State : BotState := { emptyState with userPoints := [("6", 2)] }

/-- Witness for C2: identity 6 goes from 2 points to exactly 1 after a
search matching the Ali record. -/
theorem charge_on_nonempty_witness :
    pointsVal c2State "6" = 2 ∧
    pointsVal (handle_search [rowAli] c2State "6" "A" 0).2 "6" = 1 := by
  have h := (charge_on_nonempty [rowAli] c2State "6" "A" 0 (by decide) (by decide)
    (by decide) (by decide) (by decide)).1
  refine ⟨by decide, ?_⟩
  rw [h]
  decide

theorem check_rate_limit_stamped (s : BotState) (u : String) (now : Int)
    (hadm : is_admin s u = false)
    (hrl : (check_rate_limit s u now).1.1 = false) :
    (check_rate_limit s u now).2.rateLimits.lookup u = some now := by
  revert hrl
  unfold check_rate_limit
  rw [if_neg (by simp [hadm])]
  cases hl : s.rateLimits.lookup u with
  | none =>
    intro _
    exact lookup_setKey_self u now s.rateLimits
  | some last =>
    dsimp only
    by_cases hlt : now - last < s.cooldownSeconds * usPerSec
    · rw [if_pos hlt]
      intro hc
      simp at hc
    · rw [if_neg hlt]
      intro _
      exact lookup_setKey_self u now s.rateLimits

/-- C7: for a non-admin, the rate stamp is written before the quota check —
an allowed attempt with non-positive balance is rejected as exhausted, yet
the cooldown clock is restarted at the attempt time. -/
theorem stamp_on_exhausted_attempt (rows : List Row) (s : BotState)
    (u text : String) (now : Int)
    (hadm : is_admin s u = false)
    (hq : pyStrip text ≠ "")
    (hrl : (check_rate_limit s u now).1.1 = false)
    (hbal : pointsVal s u ≤ 0) :
    (handle_search rows s u text now).1 = SearchOutcome.exhausted ∧
    (handle_search rows s u text now).2.rateLimits.lookup u = some now := by
  simp only [handle_search]
  rw [if_neg hq]
  have hrc := check_rate_limit_frame s u now
  have hadm2 : is_admin (check_rate_limit s u now).2 u = false := by
    rw [is_admin_congr hrc.2.2 u]
    exact hadm
  rw [if_neg (by simp [hrl])]
  rw [if_neg (by simp [hadm2])]
  have hgpv : (get_points (check_rate_limit s u now).2 u).1 = pointsVal s u := by
    rw [get_points_val, pointsVal_congr hrc.1 hrc.2.1 u]
  rw [if_pos (by rw [hgpv]; exact hbal)]
  refine ⟨rfl, ?_⟩
  rw [(get_points_frame _ u).2.2.1]
  exact check_rate_limit_stamped s u now hadm hrl

/-- A state in which the non-admin identity 5 has 0 points and no stamp. -/
def c7State : BotState := { emptyState with userPoints := [("5", 0)] }

/-- Witness for C7: the exhausted identity 5 is refused the search but its
rate-limit stamp is still set to the attempt time. -/
theorem stamp_on_exhausted_attempt_witness :
    (handle_search [] c7State "5" "q" 0).1 = SearchOutcome.exhausted ∧
    (handle_search [] c7State "5" "q" 0).2.rateLimits.lookup "5" = some 0 :=
  stamp_on_exhausted_attempt [] c7State "5" "q" 0 (by decide) (by decide)
    (by decide) (by decide)

/-- The owner bootstrap in `main`: when OWNER_ID is configured (nonempty)
and not yet listed, append it to `admin_users`. -/
def mainAddOwner (ownerId : Option String) (s : BotState) : BotState :=
  match ownerId with
  | none => s
  | some o =>
    if o ≠ "" ∧ ¬(s.adminUsers.contains o = true) then
      { s with adminUsers := s.adminUsers ++ [o] }
    else s

/-- C6 counterexample: with an empty admin list and configured owner 7,
`is_admin` returns false for the owner — is_admin consults only admin_users
and never compares against the owner identity. -/
theorem is_admin_ignores_owner :
    ¬(is_admin emptyState "7" = true ↔ ("7" ∈ emptyState.adminUsers ∨ "7" = "7")) := by
  decide

/-- C6 (amended): `is_admin` is true iff the identity is listed in
admin_users — the owner is not special-cased inside is_admin; instead the
startup code of `main` appends a configured nonempty absent owner to
admin_users, after which the owner tests as admin. -/
theorem is_admin_spec (s : BotState) (x o : String) (ho : o ≠ "") :
    (is_admin s x = true ↔ x ∈ s.adminUsers) ∧
    is_admin (mainAddOwner (some o) s) o = true := by
  constructor
  · simp [is_admin]
  · unfold mainAddOwner
    by_cases hc : s.adminUsers.contains o = true
    · dsimp only
      rw [if_neg (by
        simp only [not_and, not_not]
        intro _
        exact hc)]
      exact hc
    · dsimp only
      rw [if_pos ⟨ho, hc⟩]
      simp [is_admin]

/-- Witness for C6: owner 7 is absent from the empty admin list, yet after
the startup bootstrap is_admin accepts it. -/
theorem is_admin_spec_witness :
    ("7" : String) ≠ "" ∧ is_admin (mainAddOwner (some "7") emptyState) "7" = true :=
  ⟨by decide, (is_admin_spec emptyState "x" "7" (by decide)).2⟩
